import Mathlib

/-!
# Verification of the `webpage_scrape` archival pipeline

Shallow embedding of the repository's three source files:

* `claude_saver.py` — `UniversalArchiver` (directory naming, media-URL
  extraction, resource download with retries, CSS resource extraction,
  HTML rewriting, the fetch loop of `archive_webpage`);
* `epub_pdf_downloader.py` — `EnhancedArchiver.create_output_path`;
* `tweet_archiver.py` — the directory-setup prefix of `download_tweet`.

The Python standard library's `urllib.parse` functions (`urljoin`,
`urlsplit`, `urlunsplit`, `urlparse`-netloc/path access) are embedded
faithfully following CPython's `Lib/urllib/parse.py`, since the archiver's
URL behaviour is determined by them.  Network and filesystem effects are
embedded as explicit oracles and state records.  `hashlib.md5(...).hexdigest()`
and `datetime.now().strftime(...)` are abstracted as string parameters
(an arbitrary hash function and a timestamp string).
-/

namespace WebpageScrape

/-! ## String utilities (kernel-reducible replacements for library routines) -/

/-- `p` is a prefix of `s` (Python `str.startswith(p)`). -/
def strHasPrefix (s p : String) : Bool :=
  p.data.isPrefixOf s.data

/-- Split a character list at the first occurrence of `c`:
`some (before, after)` when `c` occurs, `none` otherwise. -/
def splitFirstChar (c : Char) : List Char → Option (List Char × List Char)
  | [] => none
  | x :: xs =>
    if x = c then some ([], xs)
    else
      match splitFirstChar c xs with
      | none => none
      | some (a, b) => some (x :: a, b)

/-- Python `str.split(sep)` for a single-character separator, on char lists.
`"".split(c) = [""]`. -/
def splitOnChar (c : Char) : List Char → List (List Char)
  | [] => [[]]
  | x :: xs =>
    let r := splitOnChar c xs
    if x = c then [] :: r
    else
      match r with
      | [] => [[x]]
      | h :: t => (x :: h) :: t

/-- Python `'/'.join(parts)` on char lists. -/
def joinWithSlash : List (List Char) → List Char
  | [] => []
  | [x] => x
  | x :: xs => x ++ '/' :: joinWithSlash xs

/-- Python `str.lstrip('/')`: drop all leading `'/'` characters. -/
def lstripSlash (s : String) : String :=
  ⟨s.data.dropWhile (fun c => c == '/')⟩

/-! ## `urllib.parse` model -/

/-- Result of `urllib.parse.urlsplit`. -/
structure SplitResult where
  scheme : String
  netloc : String
  path : String
  query : String
  fragment : String
deriving Repr, DecidableEq

/-- CPython `scheme_chars`: characters allowed in a URL scheme. -/
def schemeChar (c : Char) : Bool :=
  c.isAlphanum || c == '+' || c == '-' || c == '.'

/-- `urllib.parse.urlsplit(url, scheme=defaultScheme)`:
scheme detection, `//netloc` extraction (up to the first of `/?#`),
fragment split at the first `#`, query split at the first `?`. -/
def urlsplitM (url : String) (defaultScheme : String) : SplitResult :=
  let cs := url.data
  let schemeRest : List Char × List Char :=
    match splitFirstChar ':' cs with
    | some (before, after) =>
      match before with
      | [] => (defaultScheme.data, cs)
      | c0 :: _ =>
        if c0.isAlpha && before.all schemeChar then
          (before.map Char.toLower, after)
        else (defaultScheme.data, cs)
    | none => (defaultScheme.data, cs)
  let scheme := schemeRest.1
  let rest := schemeRest.2
  let netlocRest : List Char × List Char :=
    match rest with
    | '/' :: '/' :: r =>
      (r.takeWhile (fun c => !(c == '/' || c == '?' || c == '#')),
       r.dropWhile (fun c => !(c == '/' || c == '?' || c == '#')))
    | _ => ([], rest)
  let netloc := netlocRest.1
  let rest2 := netlocRest.2
  let pathFragment : List Char × List Char :=
    match splitFirstChar '#' rest2 with
    | some (a, b) => (a, b)
    | none => (rest2, [])
  let pathQuery : List Char × List Char :=
    match splitFirstChar '?' pathFragment.1 with
    | some (a, b) => (a, b)
    | none => (pathFragment.1, [])
  ⟨⟨scheme⟩, ⟨netloc⟩, ⟨pathQuery.1⟩, ⟨pathQuery.2⟩, ⟨pathFragment.2⟩⟩

/-- `urllib.parse.urlunsplit`. -/
def urlunsplitM (sr : SplitResult) : String :=
  let u1 :=
    if sr.netloc ≠ "" ∨ strHasPrefix sr.path "//" then
      "//" ++ sr.netloc ++
        (if sr.path ≠ "" ∧ ¬ (strHasPrefix sr.path "/" = true) then "/" ++ sr.path else sr.path)
    else sr.path
  let u2 := if sr.scheme ≠ "" then sr.scheme ++ ":" ++ u1 else u1
  let u3 := if sr.query ≠ "" then u2 ++ "?" ++ sr.query else u2
  if sr.fragment ≠ "" then u3 ++ "#" ++ sr.fragment else u3

/-- CPython `uses_relative`. -/
def usesRelative : List String :=
  ["", "ftp", "http", "gopher", "nntp", "imap", "wais", "file", "https", "shttp",
   "mms", "prospero", "rtsp", "rtspu", "sftp", "svn", "svn+ssh", "ws", "wss"]

/-- CPython `uses_netloc`. -/
def usesNetloc : List String :=
  ["", "ftp", "http", "gopher", "nntp", "telnet", "imap", "wais", "file", "mms",
   "https", "shttp", "snews", "prospero", "rtsp", "rtspu", "rsync", "svn",
   "svn+ssh", "sftp", "nfs", "git", "git+ssh", "ws", "wss"]

/-- CPython `urljoin`: `segments[1:-1] = filter(None, segments[1:-1])`. -/
def filterMiddle : List (List Char) → List (List Char)
  | [] => []
  | [a] => [a]
  | a :: rest => a :: ((rest.dropLast.filter (fun s => !s.isEmpty)) ++ [rest.getLastD []])

/-- CPython `urljoin` dot-segment resolution loop (`'..'` pops, `'.'` is
dropped, popping an empty stack is a no-op). -/
def resolveDots (acc : List (List Char)) : List (List Char) → List (List Char)
  | [] => acc
  | s :: rest =>
    if s = ['.', '.'] then resolveDots acc.dropLast rest
    else if s = ['.'] then resolveDots acc rest
    else resolveDots (acc ++ [s]) rest

/-- `urllib.parse.urljoin(base, url)` following CPython `Lib/urllib/parse.py`. -/
def urljoinM (base url : String) : String :=
  if base = "" then url
  else if url = "" then base
  else
    let b := urlsplitM base ""
    let u := urlsplitM url b.scheme
    if u.scheme ≠ b.scheme ∨ u.scheme ∉ usesRelative then url
    else
      let netloc1 :=
        if u.scheme ∈ usesNetloc then (if u.netloc ≠ "" then u.netloc else b.netloc)
        else u.netloc
      if u.scheme ∈ usesNetloc ∧ u.netloc ≠ "" then
        urlunsplitM ⟨u.scheme, u.netloc, u.path, u.query, u.fragment⟩
      else if u.path = "" ∧ u.query = "" then
        urlunsplitM ⟨u.scheme, netloc1, b.path, b.query, u.fragment⟩
      else
        let baseParts0 := splitOnChar '/' b.path.data
        let baseParts :=
          if baseParts0.getLastD [] ≠ [] then baseParts0.dropLast else baseParts0
        let segments :=
          if strHasPrefix u.path "/" then splitOnChar '/' u.path.data
          else filterMiddle (baseParts ++ splitOnChar '/' u.path.data)
        let resolved := resolveDots [] segments
        let resolved2 :=
          if segments.getLastD [] = ['.'] ∨ segments.getLastD [] = ['.', '.'] then
            resolved ++ [[]]
          else resolved
        let joined := joinWithSlash resolved2
        let path2 : String := if joined = [] then "/" else ⟨joined⟩
        urlunsplitM ⟨u.scheme, netloc1, path2, u.query, u.fragment⟩

example : urljoinM "https://ex.com/p" "/img/a.jpg" = "https://ex.com/img/a.jpg" := by decide
example : urljoinM "https://ex.com/p" "../b.png" = "https://ex.com/b.png" := by decide
example : urljoinM "https://ex.com/a/b/c" "d.png" = "https://ex.com/a/b/d.png" := by decide
example : urljoinM "https://ex.com/p" "//cdn.ex.com/x.js" = "https://cdn.ex.com/x.js" := by decide
example : urljoinM "https://ex.com/p" "mailto:a@b.c" = "mailto:a@b.c" := by decide
example : (urlsplitM "https://ex.com/img/a.jpg" "").netloc = "ex.com" := by decide
example : (urlsplitM "https://ex.com/img/a.jpg" "").path = "/img/a.jpg" := by decide

/-! ## Resource Extractor (`UniversalArchiver.extract_media_urls`, lines 67–136)

The Playwright page is embedded as an oracle: each of the three queries the
function performs (all `img` elements with their attributes, all `video`
elements with their `source` children, and the evaluated computed
`background-image` values of every element) either returns data or raises.
`Except.error` models a raised exception propagating out of the query. -/

structure ImgEl where
  src : Option String
  srcset : Option String
  dataSrc : Option String
deriving Repr, DecidableEq

structure VideoEl where
  src : Option String
  sources : List (Option String)
deriving Repr, DecidableEq

structure PageOracle where
  imgs : Except String (List ImgEl)
  videos : Except String (List VideoEl)
  bgStyleValues : Except String (List String)

/-- `re.findall(r'(https?://[^\s]+)', srcset)`: every maximal run of
non-whitespace characters beginning with `http://` or `https://` and
extending at least one character past the literal prefix.  Fuel-indexed
(the scanned list shrinks on every step, so `length` fuel suffices). -/
def findallHttpUrlsAux : Nat → List Char → List (List Char)
  | 0, _ => []
  | _ + 1, [] => []
  | n + 1, l@(_ :: rest) =>
    let keep := l.takeWhile (fun c => !c.isWhitespace)
    if ("http://".data.isPrefixOf l && decide (7 < keep.length)) ||
       ("https://".data.isPrefixOf l && decide (8 < keep.length)) then
      keep :: findallHttpUrlsAux n (l.dropWhile (fun c => !c.isWhitespace))
    else findallHttpUrlsAux n rest

def findallHttpUrls (s : String) : List String :=
  (findallHttpUrlsAux s.data.length s.data).map (⟨·⟩)

/-- Strip one leading quote character (`'` or `"`). -/
def stripOneQuote : List Char → List Char
  | [] => []
  | c :: rest => if c = '\'' ∨ c = '"' then rest else c :: rest

/-- Strip at most one quote character from each end, as the optional
`['"]?` groups of the JavaScript regex do. -/
def stripQuotes (l : List Char) : List Char :=
  ((stripOneQuote l).reverse |> stripOneQuote).reverse

/-- The in-page JavaScript `bg.match(/url\(['"]?(.*?)['"]?\)/)`: first
`url(` whose opening is followed by a closing `)`, contents with at most
one quote stripped from each end. -/
def jsMatchUrlAux : List Char → Option (List Char)
  | [] => none
  | l@(_ :: rest) =>
    if "url(".data.isPrefixOf l then
      match splitFirstChar ')' (l.drop 4) with
      | some (content, _) => some (stripQuotes content)
      | none => jsMatchUrlAux rest
    else jsMatchUrlAux rest

def jsMatchUrl (s : String) : Option String :=
  (jsMatchUrlAux s.data).map (⟨·⟩)

/-- The JavaScript loop of lines 105–117: for every computed
`background-image` value that is truthy and not `'none'`, push the first
`url(...)` argument. -/
def jsExtractBgImages (bgValues : List String) : List String :=
  bgValues.foldl (fun acc bg =>
    if bg ≠ "" ∧ bg ≠ "none" then
      match jsMatchUrl bg with
      | some m => acc ++ [m]
      | none => acc
    else acc) []

/-- Python `set.add` on an insertion-ordered list model of a set. -/
def addToSet (l : List String) (s : String) : List String :=
  if s ∈ l then l else l ++ [s]

/-- Python `set.update`. -/
def addAllToSet (l : List String) (xs : List String) : List String :=
  xs.foldl addToSet l

/-- Lines 73–88: `src` (skipped when falsy or a `data:` URI), `srcset`
(via the `https?://` regex), `data-src` (skipped only when falsy). -/
def collectFromImg (acc : List String) (img : ImgEl) : List String :=
  let acc1 :=
    match img.src with
    | some src => if src ≠ "" ∧ strHasPrefix src "data:" = false then addToSet acc src else acc
    | none => acc
  let acc2 :=
    match img.srcset with
    | some ss => if ss ≠ "" then addAllToSet acc1 (findallHttpUrls ss) else acc1
    | none => acc1
  match img.dataSrc with
  | some d => if d ≠ "" then addToSet acc2 d else acc2
  | none => acc2

/-- Lines 91–102: video `src` and each child `source` `src` (skipped when falsy). -/
def collectFromVideo (acc : List String) (v : VideoEl) : List String :=
  let acc1 :=
    match v.src with
    | some src => if src ≠ "" then addToSet acc src else acc
    | none => acc
  v.sources.foldl (fun a s =>
    match s with
    | some src => if src ≠ "" then addToSet a src else a
    | none => a) acc1

/-- The collection phase of `extract_media_urls` (lines 72–119): images,
then videos, then background images, accumulated into the `media_urls` set.
Any raised page query propagates. -/
def collectMediaUrls (page : PageOracle) : Except String (List String) := do
  let imgs ← page.imgs
  let acc1 := imgs.foldl collectFromImg []
  let videos ← page.videos
  let acc2 := videos.foldl collectFromVideo acc1
  let bgRaw ← page.bgStyleValues
  pure (addAllToSet acc2 (jsExtractBgImages bgRaw))

/-- The resolution loop of lines 122–131: keep truthy non-`data:` raw
references, resolve each against the base URL with `urljoin`, and collect
into the `resolved_urls` set. -/
def resolveUrls (base : String) (mediaUrls : List String) : List String :=
  mediaUrls.foldl (fun acc url =>
    if url ≠ "" ∧ strHasPrefix url "data:" = false then addToSet acc (urljoinM base url)
    else acc) []

/-- The body of the outer `try` of `extract_media_urls`: collection, then
resolution; a raised collection query propagates. -/
def extractMediaUrlsBody (page : PageOracle) (base : String) :
    Except String (List String) :=
  match collectMediaUrls page with
  | .ok m => .ok (resolveUrls base m)
  | .error e => .error e

/-- `extract_media_urls`: the outer `except` catches any raised query and
returns the empty set (lines 134–136). -/
def extractMediaUrls (page : PageOracle) (base : String) : List String :=
  match extractMediaUrlsBody page base with
  | .ok r => r
  | .error _ => []

/-- The collected raw `media_urls` set, empty when collection raised. -/
def collectedRaws (page : PageOracle) : List String :=
  match collectMediaUrls page with
  | .ok r => r
  | .error _ => []

/-! ## Resource Fetcher (`UniversalArchiver.download_resource`, lines 138–181)

The HTTP session is an oracle mapping the attempt number to what the
network does on that attempt: `raised` (transport error from
`session.get`), or a response with a status code, the body chunks the
stream yields, and whether iterating the stream raises after those chunks.
State records the `downloaded_resources` set, the files on disk, the
`asyncio.sleep` delays performed, and a log of HTTP requests issued. -/

inductive NetResult where
  | raised (msg : String)
  | resp (status : Nat) (chunks : List (List Nat)) (midError : Bool)
deriving Repr, DecidableEq

inductive DlOutcome where
  | skipped
  | success
  | failed (lastError : String)
deriving Repr, DecidableEq

structure ArchState where
  downloadedResources : List String
  files : List (String × List Nat)
  sleeps : List Nat
  requests : List String
deriving Repr, DecidableEq

def initialState : ArchState := ⟨[], [], [], []⟩

def setFile (fs : List (String × List Nat)) (p : String) (c : List Nat) :
    List (String × List Nat) :=
  (fs.filter (fun e => !(e.1 == p))) ++ [(p, c)]

def getFile (fs : List (String × List Nat)) (p : String) : Option (List Nat) :=
  (fs.find? (fun e => e.1 == p)).map Prod.snd

def reqLog (st : ArchState) (u : String) : ArchState :=
  { st with requests := st.requests ++ [u] }

/-- `if attempt < retries - 1: await asyncio.sleep(2 ** attempt)` —
a sleep happens exactly when further attempts remain. -/
def maybeSleep (st : ArchState) (a : Nat) (rest : List Nat) : ArchState :=
  if rest.isEmpty then st else { st with sleeps := st.sleeps ++ [2 ^ a] }

def writeFileSt (st : ArchState) (p : String) (c : List Nat) : ArchState :=
  { st with files := setFile st.files p c }

def markDone (st : ArchState) (u : String) : ArchState :=
  { st with downloadedResources := st.downloadedResources ++ [u] }

/-- The error the function logs for a failing attempt. -/
def errOf : NetResult → String
  | .raised m => m
  | .resp s _ _ => if s = 200 then "stream error" else "Status " ++ toString s

/-- The `for attempt in range(retries)` loop of lines 144–181.  On a 200
response the file is opened at the destination and the chunks are written
as they arrive; a mid-stream error leaves the bytes written so far at the
destination and falls into the `except` branch.  On a non-200 status or a
raised request, sleep `2 ** attempt` when attempts remain and retry.
Exhausting the loop returns with the last error (`Failed` outcome). -/
def dlLoop (net : Nat → NetResult) (u path : String) :
    List Nat → String → ArchState → ArchState × DlOutcome
  | [], lastErr, st => (st, .failed lastErr)
  | a :: rest, _, st =>
    let st1 := reqLog st u
    match net a with
    | .raised msg => dlLoop net u path rest msg (maybeSleep st1 a rest)
    | .resp status chunks midError =>
      if status = 200 then
        let st2 := writeFileSt st1 path chunks.flatten
        if midError then dlLoop net u path rest "stream error" (maybeSleep st2 a rest)
        else (markDone st2 u, .success)
      else dlLoop net u path rest ("Status " ++ toString status) (maybeSleep st1 a rest)

/-- `download_resource(url, output_path)`: returns immediately when the URL
is already in `downloaded_resources`, otherwise runs up to 3 attempts. -/
def downloadResource (net : Nat → NetResult) (u path : String) (st : ArchState) :
    ArchState × DlOutcome :=
  if u ∈ st.downloadedResources then (st, .skipped)
  else dlLoop net u path [0, 1, 2] "" st

/-- An attempt that does not complete a download: raised request, non-200
status, or a 200 response whose stream errors. -/
def attemptFails : NetResult → Bool
  | .raised _ => true
  | .resp s _ midError => !(s == 200) || midError

/-- An attempt that fails without ever reaching a 200 body: raised request
or non-200 status. -/
def attemptHardFails : NetResult → Bool
  | .raised _ => true
  | .resp s _ _ => !(s == 200)

/-- Destination path derivation of `archive_webpage` line 389:
`'media' / parsed_url.netloc / parsed_url.path.lstrip('/')`, relative to
the archive directory. -/
def destPath (url : String) : String :=
  let p := urlsplitM url ""
  "media/" ++ p.netloc ++ "/" ++ lstripSlash p.path

/-- The fetch loop of `archive_webpage` (lines 386–392): one
`download_resource` call per URL in the extracted set.  Alongside the
final state it returns, per URL, the number of HTTP requests its call
issued (the observable "attempt-sequence" length). -/
def fetchPhase (net : String → Nat → NetResult) :
    List String → ArchState → ArchState × List (String × Nat)
  | [], st => (st, [])
  | u :: rest, st =>
    let r := downloadResource (net u) u (destPath u) st
    let rest' := fetchPhase net rest r.1
    (rest'.1, (u, r.1.requests.length - st.requests.length) :: rest'.2)

example :
    (downloadResource (fun _ => .resp 404 [] false) "https://ex.com/a.png"
      (destPath "https://ex.com/a.png") initialState).2 = .failed "Status 404" := by decide

example :
    (downloadResource (fun _ => .resp 404 [] false) "https://ex.com/a.png"
      (destPath "https://ex.com/a.png") initialState).1.sleeps = [1, 2] := by decide

example :
    (downloadResource (fun _ => .resp 200 [[1, 2]] false) "https://ex.com/a.png"
      (destPath "https://ex.com/a.png") initialState).1.files =
      [("media/ex.com/a.png", [1, 2])] := by decide

example : destPath "https://ex.com/img/a.jpg" = "media/ex.com/img/a.jpg" := by decide

/-! ## CSS resource extraction (`UniversalArchiver.download_css_resources`, lines 229–258) -/

/-- Line 233: `sheet = tinycss2.parse_stylesheet()` — the call passes NO
argument, but `tinycss2.parse_stylesheet` requires its `css` positional
argument, so the call raises `TypeError` unconditionally; no list of rules
is ever produced (return type `Empty`). -/
def tinycss2ParseStylesheetMissingArg : Except String Empty :=
  .error "TypeError: parse_stylesheet() missing 1 required positional argument: css"

/-- `download_css_resources(css_content, base_url)` together with the
`font_files` / `css_files` sets it mutates.  The whole body is wrapped in
`try/except Exception`; the parse call raises before the rule loop can
run, so the except branch logs and returns `css_content` with both sets
untouched. -/
def downloadCssResources (cssContent baseUrl : String)
    (fontFiles cssFiles : List String) : String × List String × List String :=
  match tinycss2ParseStylesheetMissingArg with
  | .error _ => (cssContent, fontFiles, cssFiles)
  | .ok e => e.elim

/-! ## Archive Layout Manager (`UniversalArchiver.create_directory`, lines 58–65)

`hashlib.md5(url.encode()).hexdigest()` is abstracted as a hash-function
parameter and `datetime.now().strftime("%Y%m%d_%H%M%S")` as a timestamp
string (15 characters in the source's format). -/

/-- The directory name `f"{domain}_{hash_str}_{timestamp}"` where
`domain = urlparse(url).netloc` and `hash_str = hexdigest[:8]`. -/
def createDirectoryName (hashFn : String → String) (url timestamp : String) : String :=
  let domain := (urlsplitM url "").netloc
  let hashStr : String := ⟨(hashFn url).data.take 8⟩
  domain ++ "_" ++ hashStr ++ "_" ++ timestamp

/-- `Path(self.output_dir) / f"{domain}_{hash_str}_{timestamp}"`. -/
def createDirectoryPath (outputDir : String) (hashFn : String → String)
    (url timestamp : String) : String :=
  outputDir ++ "/" ++ createDirectoryName hashFn url timestamp

/-! ## `EnhancedArchiver.create_output_path` (`epub_pdf_downloader.py`, lines 43–49) -/

/-- `create_output_path(url)`: computes `domain`, `hash_str` and
`timestamp`, then returns
`Path(self.output_dir) / f"book_{domain}_{timestamp}.pdf"` — the hash is
bound (line 47) but never used in the name. -/
def createOutputPath (outputDir : String) (hashFn : String → String)
    (url timestamp : String) : String :=
  let domain := (urlsplitM url "").netloc
  let _hashStr : String := ⟨(hashFn url).data.take 8⟩
  outputDir ++ "/" ++ "book_" ++ domain ++ "_" ++ timestamp ++ ".pdf"

/-! ## `download_tweet` setup prefix (`tweet_archiver.py`, lines 10–16)

`re.search(r'/status/(\d+)', url)` and `re.search(r'/([^/]+)/status', url)`
are embedded as executable leftmost-match scanners.  `None.group(1)` on a
failed match raises `AttributeError`; this happens before
`os.makedirs` and before any Selenium call, so a raise leaves the
filesystem untouched. -/

/-- Match of `/status/(\d+)` anchored at the head of the list: requires at
least one digit after the literal, captures the maximal digit run. -/
def statusAt (l : List Char) : Option (List Char) :=
  if "/status/".data.isPrefixOf l then
    match l.drop 8 with
    | d :: rest => if d.isDigit then some (d :: rest.takeWhile Char.isDigit) else none
    | [] => none
  else none

/-- `re.search(r'/status/(\d+)', url)`: leftmost match, group 1. -/
def searchStatusId : List Char → Option (List Char)
  | [] => none
  | l@(_ :: rest) =>
    match statusAt l with
    | some ds => some ds
    | none => searchStatusId rest

/-- Match of `/([^/]+)/status` anchored at the head of the list: a `/`,
a nonempty run of non-`/` characters (the capture), then the literal
`/status`. -/
def usernameAt : List Char → Option (List Char)
  | '/' :: rest =>
    let seg := rest.takeWhile (fun c => !(c == '/'))
    let rest2 := rest.dropWhile (fun c => !(c == '/'))
    if seg ≠ [] ∧ "/status".data.isPrefixOf rest2 then some seg else none
  | _ => none

/-- `re.search(r'/([^/]+)/status', url)`: leftmost match, group 1. -/
def searchUsername : List Char → Option (List Char)
  | [] => none
  | l@(_ :: rest) =>
    match usernameAt l with
    | some s => some s
    | none => searchUsername rest

/-- Both regexes of lines 12–13 match. -/
def hasTweetPattern (url : String) : Bool :=
  (searchStatusId url.data).isSome && (searchUsername url.data).isSome

structure TweetSetup where
  raised : Bool
  username : Option String
  tweetId : Option String
  dirsCreated : List String
deriving Repr, DecidableEq

/-- Lines 12–16 of `download_tweet`: the two regex searches (a failed one
raises `AttributeError` at `.group(1)`), then
`os.makedirs(os.path.join(folder_name, "media"))`.  Everything after
(Chrome launch, navigation, downloads) only runs when both matches
succeed. -/
def downloadTweetSetup (url : String) : TweetSetup :=
  match searchStatusId url.data with
  | none => ⟨true, none, none, []⟩
  | some tid =>
    match searchUsername url.data with
    | none => ⟨true, none, some ⟨tid⟩, []⟩
    | some uname =>
      let folder : String := (⟨uname⟩ : String) ++ "_" ++ (⟨tid⟩ : String)
      ⟨false, some ⟨uname⟩, some ⟨tid⟩, [folder ++ "/media"]⟩

example : downloadTweetSetup "https://x.com/alice/status/123" =
    ⟨false, some "alice", some "123", ["alice_123/media"]⟩ := by decide
example : (downloadTweetSetup "https://x.com/aboutpage").raised = true := by decide

/-! ## Document Rewriter (`UniversalArchiver.modify_html_content`, lines 278–322)

The parsed document is embedded structurally: `soup.select('*')` is the
element list in document order, and appends to `soup.head` are collected
separately.  The aiohttp session used for external stylesheets is an
oracle from URL to status/text (or a raised error, which the outer
`except` turns into returning the original content).  Written style files
are returned as `(path, content)` pairs. -/

structure HtmlEl where
  tag : String
  attrs : List (String × String)
deriving Repr, DecidableEq

structure Soup where
  elems : List HtmlEl
  headAppended : List HtmlEl
deriving Repr, DecidableEq

/-- The `styles` dictionary produced by `extract_styles` (lines 219–223). -/
structure StylesData where
  stylesheets : List String
  inlineStyles : List String
  computedStyles : List (String × List (String × String))

/-- BeautifulSoup `element[key] = value`. -/
def setAttr (el : HtmlEl) (k v : String) : HtmlEl :=
  { el with attrs := (el.attrs.filter (fun kv => !(kv.1 == k))) ++ [(k, v)] }

/-- `soup.new_tag('link', rel='stylesheet', href=href)`. -/
def linkTag (href : String) : HtmlEl :=
  ⟨"link", [("rel", "stylesheet"), ("href", href)]⟩

structure SheetsAcc where
  links : List HtmlEl
  styleFiles : List (String × String)
  fontFiles : List String
  cssFiles : List String
deriving Repr, DecidableEq

/-- Lines 292–302: for each enumerated stylesheet entry starting with
`http`, fetch it; on status 200 run `download_css_resources`, write
`styles/external_{i}.css` and append a `<link>`.  A raised fetch
propagates to the outer `except`. -/
def processExternalSheets (sessGet : String → Except String (Nat × String)) :
    List (Nat × String) → List String → List String → Except String SheetsAcc
  | [], ff, cf => .ok ⟨[], [], ff, cf⟩
  | (i, s) :: rest, ff, cf =>
    if strHasPrefix s "http" then
      match sessGet s with
      | .error e => .error e
      | .ok (status, text) =>
        if status = 200 then
          let r := downloadCssResources text s ff cf
          match processExternalSheets sessGet rest r.2.1 r.2.2 with
          | .error e => .error e
          | .ok acc =>
            .ok ⟨linkTag ("styles/external_" ++ toString i ++ ".css") :: acc.links,
                 ("styles/external_" ++ toString i ++ ".css", r.1) :: acc.styleFiles,
                 acc.fontFiles, acc.cssFiles⟩
        else processExternalSheets sessGet rest ff cf
    else processExternalSheets sessGet rest ff cf

/-- Lines 305–311: every inline style block is passed through
`download_css_resources`, written to `styles/inline_{i}.css`, and a
`<link>` appended. -/
def processInlineSheets (baseUrl : String) :
    List (Nat × String) → List String → List String → SheetsAcc
  | [], ff, cf => ⟨[], [], ff, cf⟩
  | (i, s) :: rest, ff, cf =>
    let r := downloadCssResources s baseUrl ff cf
    let acc := processInlineSheets baseUrl rest r.2.1 r.2.2
    ⟨linkTag ("styles/inline_" ++ toString i ++ ".css") :: acc.links,
     ("styles/inline_" ++ toString i ++ ".css", r.1) :: acc.styleFiles,
     acc.fontFiles, acc.cssFiles⟩

/-- `save_computed_styles` (lines 260–276): one
`[data-style="element-i"] { prop: value; ... }` rule per element. -/
def renderComputedCss (computed : List (String × List (String × String))) : String :=
  computed.foldl (fun acc ep =>
    acc ++ "[data-style=\"" ++ ep.1 ++ "\"] \x7b\n" ++
      (ep.2.foldl (fun a pv => a ++ "  " ++ pv.1 ++ ": " ++ pv.2 ++ ";\n") "") ++
      "\x7d\n") ""

structure ModifyResult where
  soup : Soup
  styleFiles : List (String × String)
  fontFiles : List String
  cssFiles : List String
deriving Repr, DecidableEq

/-- The `try` body of `modify_html_content`: add `data-style="element-{i}"`
markers to every element, process external and inline stylesheets, write
`computed.css` and link it. -/
def modifyHtmlContentBody (sessGet : String → Except String (Nat × String))
    (soup : Soup) (styles : StylesData) (baseUrl : String)
    (fontFiles cssFiles : List String) : Except String ModifyResult := do
  let elems := soup.elems.enum.map
    (fun p => setAttr p.2 "data-style" ("element-" ++ toString p.1))
  let ext ← processExternalSheets sessGet styles.stylesheets.enum fontFiles cssFiles
  let inl := processInlineSheets baseUrl styles.inlineStyles.enum ext.fontFiles ext.cssFiles
  let computedFile := ("styles/computed.css", renderComputedCss styles.computedStyles)
  pure ⟨⟨elems, soup.headAppended ++ ext.links ++ inl.links ++ [linkTag "styles/computed.css"]⟩,
        ext.styleFiles ++ inl.styleFiles ++ [computedFile],
        inl.fontFiles, inl.cssFiles⟩

/-- `modify_html_content(content, styles)`: on any raised error the
`except` branch returns the original content unchanged (lines 320–322). -/
def modifyHtmlContent (sessGet : String → Except String (Nat × String))
    (soup : Soup) (styles : StylesData) (baseUrl : String)
    (fontFiles cssFiles : List String) : ModifyResult :=
  match modifyHtmlContentBody sessGet soup styles baseUrl fontFiles cssFiles with
  | .ok r => r
  | .error _ => ⟨soup, [], fontFiles, cssFiles⟩

/-- The document (or a link appended to its head) carries an attribute
whose value is `v` — the structural form of "the persisted `index.html`
references `v`". -/
def elAttrValue (el : HtmlEl) (v : String) : Bool :=
  el.attrs.any (fun kv => kv.2 == v)

def soupReferences (s : Soup) (v : String) : Bool :=
  s.elems.any (fun el => elAttrValue el v) || s.headAppended.any (fun el => elAttrValue el v)

/-! ## Concrete instances used by witnesses and counterexamples -/

/-- A network that always answers 200 and streams two bytes successfully. -/
def c1Net : String → Nat → NetResult := fun _ _ => .resp 200 [[97, 98]] false

/-- The C1 scenario page: base `https://ex.com/p`, an `<img src="/img/a.jpg">`,
and an element whose computed `background-image` is `url(../b.png)`. -/
def c1Page : PageOracle :=
  ⟨.ok [⟨some "/img/a.jpg", none, none⟩], .ok [], .ok ["none", "url(../b.png)"]⟩

def c1Base : String := "https://ex.com/p"

/-- The C1 scenario document as parsed by BeautifulSoup. -/
def c1Soup : Soup :=
  ⟨[⟨"html", []⟩, ⟨"head", []⟩, ⟨"body", []⟩, ⟨"img", [("src", "/img/a.jpg")]⟩,
    ⟨"div", [("class", "hero")]⟩], []⟩

def c1Styles : StylesData := ⟨[], [], []⟩

/-- No stylesheet is fetched in the C1 scenario. -/
def c1Sess : String → Except String (Nat × String) := fun _ => .error "no network"

/-- A fetch whose first attempt returns 200 and errors mid-stream after two
bytes, then two hard failures. -/
def c2Net : Nat → NetResult := fun _ => .resp 200 [[104, 105]] true

/-- A network that always answers 503 with no body. -/
def c2WitnessNet : Nat → NetResult := fun _ => .resp 503 [] false

/-- A network that always raises a transport error. -/
def c3Net : String → Nat → NetResult := fun _ _ => .raised "timeout"

/-- A network that always answers 500. -/
def c4Net : Nat → NetResult := fun _ => .resp 500 [] false

/-- The state after a first, exhausted-failure call of `download_resource`. -/
def c4FirstCall : ArchState × DlOutcome :=
  downloadResource c4Net "https://ex.com/x.png" "media/ex.com/x.png" initialState

/-- A network that succeeds on the first attempt. -/
def c4OkNet : String → Nat → NetResult := fun _ _ => .resp 200 [[7]] false

/-- Single-URL variant of `c4OkNet`. -/
def c4OneNet : Nat → NetResult := fun _ => .resp 200 [[7]] false

/-- A state in which one URL already has a recorded success. -/
def c4DoneState : ArchState := ⟨["https://ex.com/a.png"], [], [], []⟩

/-- The synthetic stylesheet of the C5 round-trip property. -/
def c5Stylesheet : String :=
  "@font-face \x7b src: url(a.woff) \x7d\n.x \x7b background: url(b.png) \x7d"

/-- A stand-in for `hashlib.md5(url.encode()).hexdigest()`: deterministic,
32 characters, distinct on the two witness URLs. -/
def mockMd5 (u : String) : String :=
  if u = "https://a.example/page1" then "00000000000000000000000000000000"
  else "11111111111111111111111111111111"

/-- A page whose element query raises. -/
def crashingPage : PageOracle :=
  ⟨.error "Page.query_selector_all: Target closed", .ok [], .ok []⟩

/-- The C7 witness page: relative, protocol-relative, absolute, lazy-load
`data:` and computed-background references. -/
def c7Page : PageOracle :=
  ⟨.ok [⟨some "/i.png", some "https://cdn.ex.com/j.png 2x",
        some "data:image/png;base64,AA"⟩],
   .ok [⟨some "/v.mp4", [some "//cdn.ex.com/w.webm"]⟩],
   .ok ["url('k.gif')"]⟩

/-! ## Structural lemmas about the fetcher state machine -/

@[simp] lemma reqLog_requests (st : ArchState) (u : String) :
    (reqLog st u).requests = st.requests ++ [u] := rfl

@[simp] lemma reqLog_sleeps (st : ArchState) (u : String) :
    (reqLog st u).sleeps = st.sleeps := rfl

@[simp] lemma reqLog_downloaded (st : ArchState) (u : String) :
    (reqLog st u).downloadedResources = st.downloadedResources := rfl

@[simp] lemma reqLog_files (st : ArchState) (u : String) :
    (reqLog st u).files = st.files := rfl

@[simp] lemma maybeSleep_requests (st : ArchState) (a : Nat) (rest : List Nat) :
    (maybeSleep st a rest).requests = st.requests := by
  unfold maybeSleep; split <;> rfl

@[simp] lemma maybeSleep_sleeps (st : ArchState) (a : Nat) (rest : List Nat) :
    (maybeSleep st a rest).sleeps =
      st.sleeps ++ (if rest.isEmpty then [] else [2 ^ a]) := by
  unfold maybeSleep; split <;> simp_all

@[simp] lemma maybeSleep_downloaded (st : ArchState) (a : Nat) (rest : List Nat) :
    (maybeSleep st a rest).downloadedResources = st.downloadedResources := by
  unfold maybeSleep; split <;> rfl

@[simp] lemma maybeSleep_files (st : ArchState) (a : Nat) (rest : List Nat) :
    (maybeSleep st a rest).files = st.files := by
  unfold maybeSleep; split <;> rfl

@[simp] lemma writeFileSt_requests (st : ArchState) (p : String) (c : List Nat) :
    (writeFileSt st p c).requests = st.requests := rfl

@[simp] lemma writeFileSt_sleeps (st : ArchState) (p : String) (c : List Nat) :
    (writeFileSt st p c).sleeps = st.sleeps := rfl

@[simp] lemma writeFileSt_downloaded (st : ArchState) (p : String) (c : List Nat) :
    (writeFileSt st p c).downloadedResources = st.downloadedResources := rfl

@[simp] lemma markDone_requests (st : ArchState) (u : String) :
    (markDone st u).requests = st.requests := rfl

@[simp] lemma markDone_sleeps (st : ArchState) (u : String) :
    (markDone st u).sleeps = st.sleeps := rfl

@[simp] lemma markDone_files (st : ArchState) (u : String) :
    (markDone st u).files = st.files := rfl

@[simp] lemma markDone_downloaded (st : ArchState) (u : String) :
    (markDone st u).downloadedResources = st.downloadedResources ++ [u] := rfl

/-- One failing attempt advances the loop: it logs one request for `u`,
sleeps `2 ^ attempt` when attempts remain, leaves `downloaded_resources`
unchanged, and recurses with the attempt's error as the last error. -/
lemma dlLoop_fail_step (net : Nat → NetResult) (u path : String) (a : Nat)
    (rest : List Nat) (le : String) (st : ArchState)
    (hf : attemptFails (net a) = true) :
    ∃ st', dlLoop net u path (a :: rest) le st =
        dlLoop net u path rest (errOf (net a)) st' ∧
      st'.requests = st.requests ++ [u] ∧
      st'.sleeps = st.sleeps ++ (if rest.isEmpty then [] else [2 ^ a]) ∧
      st'.downloadedResources = st.downloadedResources := by
  cases hn : net a with
  | raised msg =>
    exact ⟨maybeSleep (reqLog st u) a rest, by simp [dlLoop, hn, errOf], by simp,
      by simp, by simp⟩
  | resp status chunks midError =>
    rw [hn] at hf
    by_cases h200 : status = 200
    · subst h200
      have hmid : midError = true := by simpa [attemptFails] using hf
      subst hmid
      exact ⟨maybeSleep (writeFileSt (reqLog st u) path chunks.flatten) a rest,
        by simp [dlLoop, hn, errOf], by simp, by simp, by simp⟩
    · exact ⟨maybeSleep (reqLog st u) a rest,
        by simp [dlLoop, hn, errOf, h200], by simp, by simp, by simp⟩

@[simp] lemma dlLoop_nil (net : Nat → NetResult) (u path le : String) (st : ArchState) :
    dlLoop net u path [] le st = (st, .failed le) := rfl

/-- `download_resource` on a URL whose every attempt fails: exactly three
requests are issued, the delays slept are `2^0 = 1` then `2^1 = 2`
(strictly increasing, doubling), the outcome is `Failed` carrying the last
attempt's error, and the URL is not added to `downloaded_resources`. -/
lemma downloadResource_allfail (net : Nat → NetResult) (u path : String)
    (st : ArchState) (hdl : u ∉ st.downloadedResources)
    (hf : ∀ a, attemptFails (net a) = true) :
    (downloadResource net u path st).2 = .failed (errOf (net 2)) ∧
    (downloadResource net u path st).1.requests = st.requests ++ [u, u, u] ∧
    (downloadResource net u path st).1.sleeps = st.sleeps ++ [1, 2] ∧
    (downloadResource net u path st).1.downloadedResources =
      st.downloadedResources := by
  obtain ⟨s1, e1, r1, l1, d1⟩ := dlLoop_fail_step net u path 0 [1, 2] "" st (hf 0)
  obtain ⟨s2, e2, r2, l2, d2⟩ :=
    dlLoop_fail_step net u path 1 [2] (errOf (net 0)) s1 (hf 1)
  obtain ⟨s3, e3, r3, l3, d3⟩ :=
    dlLoop_fail_step net u path 2 [] (errOf (net 1)) s2 (hf 2)
  have hrun : dlLoop net u path [0, 1, 2] "" st = (s3, .failed (errOf (net 2))) := by
    rw [e1, e2, e3, dlLoop_nil]
  unfold downloadResource
  rw [if_neg hdl, hrun]
  refine ⟨rfl, ?_, ?_, ?_⟩
  · rw [r3, r2, r1]; simp
  · rw [l3, l2, l1]; simp
  · rw [d3, d2, d1]

/-- While attempts fail without reaching a 200 body, the loop never
touches the filesystem. -/
lemma dlLoop_hardfail_files (net : Nat → NetResult) (u path : String) :
    ∀ (attempts : List Nat) (le : String) (st : ArchState),
      (∀ a ∈ attempts, attemptHardFails (net a) = true) →
      (dlLoop net u path attempts le st).1.files = st.files := by
  intro attempts
  induction attempts with
  | nil => intro le st _; rfl
  | cons a rest ih =>
    intro le st hall
    have ha := hall a (by simp)
    cases hn : net a with
    | raised msg =>
      rw [show dlLoop net u path (a :: rest) le st =
          dlLoop net u path rest msg (maybeSleep (reqLog st u) a rest) by
        simp [dlLoop, hn]]
      rw [ih _ _ (fun b hb => hall b (by simp [hb]))]
      simp
    | resp status chunks midError =>
      rw [hn] at ha
      have h200 : ¬ status = 200 := by
        simpa [attemptHardFails] using ha
      rw [show dlLoop net u path (a :: rest) le st =
          dlLoop net u path rest ("Status " ++ toString status)
            (maybeSleep (reqLog st u) a rest) by
        simp [dlLoop, hn, h200]]
      rw [ih _ _ (fun b hb => hall b (by simp [hb]))]
      simp

/-- Every hard-failing attempt is a failing attempt. -/
lemma attemptHardFails_fails (r : NetResult) (h : attemptHardFails r = true) :
    attemptFails r = true := by
  cases r with
  | raised m => rfl
  | resp s c m => simp_all [attemptHardFails, attemptFails]

/-- `download_resource` only ever appends copies of its own URL to the
request log, adds at most its own URL to `downloaded_resources`, and
issues at least one request when the URL is fresh. -/
lemma dlLoop_requests_shape (net : Nat → NetResult) (u path : String) :
    ∀ (attempts : List Nat) (le : String) (st : ArchState),
      ∃ k, k ≤ attempts.length ∧
        (dlLoop net u path attempts le st).1.requests =
          st.requests ++ List.replicate k u ∧
        ((dlLoop net u path attempts le st).1.downloadedResources =
            st.downloadedResources ∨
         (dlLoop net u path attempts le st).1.downloadedResources =
            st.downloadedResources ++ [u]) ∧
        (attempts ≠ [] → 1 ≤ k) := by
  intro attempts
  induction attempts with
  | nil =>
    intro le st
    exact ⟨0, by simp, by simp, Or.inl rfl, by simp⟩
  | cons a rest ih =>
    intro le st
    cases hn : net a with
    | raised msg =>
      obtain ⟨k, hk, hr, hd, _⟩ := ih msg (maybeSleep (reqLog st u) a rest)
      refine ⟨k + 1, by simpa using Nat.succ_le_succ hk, ?_, ?_, fun _ => by omega⟩
      · rw [show dlLoop net u path (a :: rest) le st =
            dlLoop net u path rest msg (maybeSleep (reqLog st u) a rest) by
          simp [dlLoop, hn]]
        rw [hr]; simp [List.replicate_succ]
      · rw [show dlLoop net u path (a :: rest) le st =
            dlLoop net u path rest msg (maybeSleep (reqLog st u) a rest) by
          simp [dlLoop, hn]]
        simpa using hd
    | resp status chunks midError =>
      by_cases h200 : status = 200
      · subst h200
        cases hm : midError with
        | true =>
          obtain ⟨k, hk, hr, hd, _⟩ := ih "stream error"
            (maybeSleep (writeFileSt (reqLog st u) path chunks.flatten) a rest)
          refine ⟨k + 1, by simpa using Nat.succ_le_succ hk, ?_, ?_, fun _ => by omega⟩
          · rw [show dlLoop net u path (a :: rest) le st =
                dlLoop net u path rest "stream error"
                  (maybeSleep (writeFileSt (reqLog st u) path chunks.flatten) a rest) by
              simp [dlLoop, hn, hm]]
            rw [hr]; simp [List.replicate_succ]
          · rw [show dlLoop net u path (a :: rest) le st =
                dlLoop net u path rest "stream error"
                  (maybeSleep (writeFileSt (reqLog st u) path chunks.flatten) a rest) by
              simp [dlLoop, hn, hm]]
            simpa using hd
        | false =>
          refine ⟨1, by simp, ?_, ?_, fun _ => le_refl 1⟩
          · rw [show dlLoop net u path (a :: rest) le st =
                (markDone (writeFileSt (reqLog st u) path chunks.flatten) u, .success) by
              simp [dlLoop, hn, hm]]
            simp
          · rw [show dlLoop net u path (a :: rest) le st =
                (markDone (writeFileSt (reqLog st u) path chunks.flatten) u, .success) by
              simp [dlLoop, hn, hm]]
            simp
      · obtain ⟨k, hk, hr, hd, _⟩ := ih ("Status " ++ toString status)
          (maybeSleep (reqLog st u) a rest)
        refine ⟨k + 1, by simpa using Nat.succ_le_succ hk, ?_, ?_, fun _ => by omega⟩
        · rw [show dlLoop net u path (a :: rest) le st =
              dlLoop net u path rest ("Status " ++ toString status)
                (maybeSleep (reqLog st u) a rest) by
            simp [dlLoop, hn, h200]]
          rw [hr]; simp [List.replicate_succ]
        · rw [show dlLoop net u path (a :: rest) le st =
              dlLoop net u path rest ("Status " ++ toString status)
                (maybeSleep (reqLog st u) a rest) by
            simp [dlLoop, hn, h200]]
          simpa using hd

lemma downloadResource_requests_shape (net : Nat → NetResult) (u path : String)
    (st : ArchState) :
    ∃ k, k ≤ 3 ∧
      (downloadResource net u path st).1.requests =
        st.requests ++ List.replicate k u ∧
      ((downloadResource net u path st).1.downloadedResources =
          st.downloadedResources ∨
       (downloadResource net u path st).1.downloadedResources =
          st.downloadedResources ++ [u]) ∧
      (u ∉ st.downloadedResources → 1 ≤ k) := by
  unfold downloadResource
  by_cases hmem : u ∈ st.downloadedResources
  · exact ⟨0, by simp, by simp [hmem], by simp [hmem], fun h => absurd hmem h⟩
  · rw [if_neg hmem]
    obtain ⟨k, hk, hr, hd, hpos⟩ := dlLoop_requests_shape net u path [0, 1, 2] "" st
    exact ⟨k, by simpa using hk, hr, hd, fun _ => hpos (by simp)⟩

/-- A success outcome marks the URL as downloaded. -/
lemma dlLoop_success_mem (net : Nat → NetResult) (u path : String) :
    ∀ (attempts : List Nat) (le : String) (st : ArchState),
      (dlLoop net u path attempts le st).2 = .success →
      u ∈ (dlLoop net u path attempts le st).1.downloadedResources := by
  intro attempts
  induction attempts with
  | nil => intro le st h; simp at h
  | cons a rest ih =>
    intro le st h
    cases hn : net a with
    | raised msg =>
      have he : dlLoop net u path (a :: rest) le st =
          dlLoop net u path rest msg (maybeSleep (reqLog st u) a rest) := by
        simp [dlLoop, hn]
      rw [he] at h ⊢; exact ih _ _ h
    | resp status chunks midError =>
      by_cases h200 : status = 200
      · subst h200
        cases hm : midError with
        | true =>
          have he : dlLoop net u path (a :: rest) le st =
              dlLoop net u path rest "stream error"
                (maybeSleep (writeFileSt (reqLog st u) path chunks.flatten) a rest) := by
            simp [dlLoop, hn, hm]
          rw [he] at h ⊢; exact ih _ _ h
        | false =>
          have he : dlLoop net u path (a :: rest) le st =
              (markDone (writeFileSt (reqLog st u) path chunks.flatten) u, .success) := by
            simp [dlLoop, hn, hm]
          rw [he]; simp
      · have he : dlLoop net u path (a :: rest) le st =
            dlLoop net u path rest ("Status " ++ toString status)
              (maybeSleep (reqLog st u) a rest) := by
          simp [dlLoop, hn, h200]
        rw [he] at h ⊢; exact ih _ _ h

lemma downloadResource_success_mem (net : Nat → NetResult) (u path : String)
    (st : ArchState) (h : (downloadResource net u path st).2 = .success) :
    u ∈ (downloadResource net u path st).1.downloadedResources := by
  unfold downloadResource at h ⊢
  by_cases hmem : u ∈ st.downloadedResources
  · rw [if_pos hmem] at h; simp at h
  · rw [if_neg hmem] at h ⊢; exact dlLoop_success_mem net u path _ _ _ h

/-! ## Lemmas about the fetch loop of `archive_webpage` -/

lemma fetchPhase_count_notmem (net : String → Nat → NetResult) :
    ∀ (urls : List String) (st : ArchState) (u : String), u ∉ urls →
      ((fetchPhase net urls st).1.requests).count u = st.requests.count u := by
  intro urls
  induction urls with
  | nil => intro st u _; rfl
  | cons v rest ih =>
    intro st u hu
    have hne : u ≠ v := fun h => hu (by simp [h])
    obtain ⟨k, _, hr, _, _⟩ :=
      downloadResource_requests_shape (net v) v (destPath v) st
    show ((fetchPhase net rest (downloadResource (net v) v (destPath v) st).1).1.requests).count u = _
    rw [ih _ u (fun h => hu (by simp [h])), hr]
    simp only [List.count_append, List.count_replicate]
    have : ¬ (v = u) := fun h => hne h.symm
    simp [this]

lemma fetchPhase_dl_mem (net : String → Nat → NetResult) :
    ∀ (urls : List String) (st : ArchState) (v : String),
      v ∈ (fetchPhase net urls st).1.downloadedResources →
      v ∈ st.downloadedResources ∨ v ∈ urls := by
  intro urls
  induction urls with
  | nil => intro st v h; exact Or.inl h
  | cons w rest ih =>
    intro st v h
    obtain ⟨k, _, _, hd, _⟩ :=
      downloadResource_requests_shape (net w) w (destPath w) st
    have h' := ih (downloadResource (net w) w (destPath w) st).1 v h
    rcases h' with h' | h'
    · rcases hd with hd | hd
      · rw [hd] at h'; exact Or.inl h'
      · rw [hd] at h'
        rcases List.mem_append.mp h' with h'' | h''
        · exact Or.inl h''
        · simp at h''; exact Or.inr (by simp [h''])
    · exact Or.inr (by simp [h'])

/-- In a run over a deduplicated URL list, a URL whose every attempt fails
accounts for exactly three requests in the whole run. -/
lemma fetchPhase_count_allfail (net : String → Nat → NetResult) (u : String)
    (hf : ∀ a, attemptFails (net u a) = true) :
    ∀ (urls : List String) (st : ArchState), urls.Nodup → u ∈ urls →
      u ∉ st.downloadedResources →
      ((fetchPhase net urls st).1.requests).count u = st.requests.count u + 3 := by
  intro urls
  induction urls with
  | nil => intro st _ hu _; simp at hu
  | cons v rest ih =>
    intro st hnd hu hdl
    by_cases hv : u = v
    · subst hv
      obtain ⟨_, hr, _, _⟩ := downloadResource_allfail (net u) u (destPath u) st hdl hf
      have hnotin : u ∉ rest := (List.nodup_cons.mp hnd).1
      show ((fetchPhase net rest (downloadResource (net u) u (destPath u) st).1).1.requests).count u = _
      rw [fetchPhase_count_notmem net rest _ u hnotin, hr]
      simp [List.count_append]
    · have hu' : u ∈ rest := by
        rcases List.mem_cons.mp hu with h | h
        · exact absurd h hv
        · exact h
      obtain ⟨k, _, hr, hd, _⟩ :=
        downloadResource_requests_shape (net v) v (destPath v) st
      have hdl' : u ∉ (downloadResource (net v) v (destPath v) st).1.downloadedResources := by
        rcases hd with hd | hd
        · rw [hd]; exact hdl
        · rw [hd]; intro h
          rcases List.mem_append.mp h with h' | h'
          · exact hdl h'
          · simp at h'; exact hv h'
      show ((fetchPhase net rest (downloadResource (net v) v (destPath v) st).1).1.requests).count u = _
      rw [ih _ (List.nodup_cons.mp hnd).2 hu' hdl', hr]
      simp only [List.count_append, List.count_replicate]
      have : ¬ (v = u) := fun h => hv h.symm
      simp [this]

@[simp] lemma fetchPhase_trace_fst (net : String → Nat → NetResult) :
    ∀ (urls : List String) (st : ArchState),
      (fetchPhase net urls st).2.map Prod.fst = urls := by
  intro urls
  induction urls with
  | nil => intro st; rfl
  | cons v rest ih => intro st; simp [fetchPhase, ih]

/-- Over a deduplicated URL list of fresh URLs, every per-URL
attempt-sequence issues between 1 and 3 requests. -/
lemma fetchPhase_trace_bounds (net : String → Nat → NetResult) :
    ∀ (urls : List String) (st : ArchState), urls.Nodup →
      (∀ v ∈ urls, v ∉ st.downloadedResources) →
      ∀ p ∈ (fetchPhase net urls st).2, 1 ≤ p.2 ∧ p.2 ≤ 3 := by
  intro urls
  induction urls with
  | nil => intro st _ _ p hp; simp [fetchPhase] at hp
  | cons v rest ih =>
    intro st hnd hfresh p hp
    obtain ⟨k, hk3, hr, hd, hpos⟩ :=
      downloadResource_requests_shape (net v) v (destPath v) st
    have hlen : (downloadResource (net v) v (destPath v) st).1.requests.length -
        st.requests.length = k := by
      rw [hr]; simp
    rcases List.mem_cons.mp hp with hp' | hp'
    · subst hp'
      refine ⟨?_, by simpa [hlen] using hk3⟩
      have := hpos (hfresh v (by simp))
      simpa [hlen] using this
    · refine ih _ (List.nodup_cons.mp hnd).2 ?_ p hp'
      intro w hw
      rcases hd with hd | hd
      · rw [hd]; exact hfresh w (by simp [hw])
      · rw [hd]; intro h
        rcases List.mem_append.mp h with h' | h'
        · exact hfresh w (by simp [hw]) h'
        · simp at h'
          exact (List.nodup_cons.mp hnd).1 (h' ▸ hw)

/-! ## String-prefix lemmas for URL resolution -/

lemma str_data_append (s t : String) : (s ++ t).data = s.data ++ t.data := rfl

/-- Strings whose character data begins `{sch}:`. -/
def schemeHeaded (sch s : String) : Prop :=
  ∃ t, s.data = sch.data ++ ':' :: t

lemma schemeHeaded_base (sch x : String) : schemeHeaded sch (sch ++ ":" ++ x) :=
  ⟨x.data, by rw [str_data_append, str_data_append, List.append_assoc]; rfl⟩

lemma schemeHeaded_append (sch s y : String) (h : schemeHeaded sch s) :
    schemeHeaded sch (s ++ y) := by
  obtain ⟨t, ht⟩ := h
  exact ⟨t ++ y.data, by rw [str_data_append, ht]; simp⟩

/-- A string headed by any nonempty scheme of `uses_relative` — the only
schemes that can reach `urljoin`'s URL-building branches — is never
`data:`-prefixed: `data` is not in the list. -/
lemma schemeHeaded_not_data (sch s : String) (hmem : sch ∈ usesRelative)
    (hne : sch ≠ "") (h : schemeHeaded sch s) :
    strHasPrefix s "data:" = false := by
  obtain ⟨t, ht⟩ := h
  unfold strHasPrefix
  rw [ht]
  fin_cases hmem
  · exact absurd rfl hne
  all_goals rfl

/-- Whatever the other components are, `urlunsplit` with a nonempty scheme
produces a string starting `{scheme}:`. -/
lemma urlunsplitM_headed (sr : SplitResult) (hne : sr.scheme ≠ "") :
    schemeHeaded sr.scheme (urlunsplitM sr) := by
  unfold urlunsplitM
  by_cases hq : sr.query = "" <;> by_cases hf : sr.fragment = "" <;>
    simp [hq, hf, hne] <;>
    repeat
      first
      | exact schemeHeaded_base _ _
      | apply schemeHeaded_append

/-- `urljoin` against a base URL with a scheme (`http`, `https`, `file`,
…) never produces a `data:` URI from a truthy, non-`data:` raw reference:
either the raw URL is returned unchanged, or the output is built with the
base's scheme, which lies in `uses_relative` and so is never `data`. -/
lemma urljoinM_not_data (base url : String)
    (hb : (urlsplitM base "").scheme ≠ "")
    (hu : url ≠ "") (hd : strHasPrefix url "data:" = false) :
    strHasPrefix (urljoinM base url) "data:" = false := by
  have hbase : ¬ base = "" := by
    intro h0
    rw [h0] at hb
    exact hb (by decide)
  unfold urljoinM
  rw [if_neg hbase, if_neg hu]
  by_cases hc : (urlsplitM url (urlsplitM base "").scheme).scheme ≠
      (urlsplitM base "").scheme ∨
      (urlsplitM url (urlsplitM base "").scheme).scheme ∉ usesRelative
  · rw [if_pos hc]; exact hd
  · rw [if_neg hc]
    push_neg at hc
    have hmem : (urlsplitM base "").scheme ∈ usesRelative := hc.1 ▸ hc.2
    rw [hc.1]
    repeat' split
    all_goals exact schemeHeaded_not_data _ _ hmem hb (urlunsplitM_headed _ hb)

/-! ## Lemmas about the resolution loop -/

lemma mem_addToSet (acc : List String) (x v : String) (h : v ∈ addToSet acc x) :
    v ∈ acc ∨ v = x := by
  unfold addToSet at h
  split at h
  · exact Or.inl h
  · rcases List.mem_append.mp h with h' | h'
    · exact Or.inl h'
    · simp at h'; exact Or.inr h'

lemma resolveUrls_mem_aux (base : String) :
    ∀ (l acc : List String) (v : String),
      v ∈ l.foldl (fun acc url =>
          if url ≠ "" ∧ strHasPrefix url "data:" = false
          then addToSet acc (urljoinM base url) else acc) acc →
      v ∈ acc ∨ ∃ raw ∈ l, raw ≠ "" ∧ strHasPrefix raw "data:" = false ∧
        v = urljoinM base raw := by
  intro l
  induction l with
  | nil => intro acc v h; exact Or.inl h
  | cons x rest ih =>
    intro acc v h
    simp only [List.foldl_cons] at h
    by_cases hx : x ≠ "" ∧ strHasPrefix x "data:" = false
    · rw [if_pos hx] at h
      rcases ih _ v h with h' | h'
      · rcases mem_addToSet _ _ _ h' with h'' | h''
        · exact Or.inl h''
        · exact Or.inr ⟨x, by simp, hx.1, hx.2, h''⟩
      · obtain ⟨raw, hr, a, b, c⟩ := h'
        exact Or.inr ⟨raw, by simp [hr], a, b, c⟩
    · rw [if_neg hx] at h
      rcases ih _ v h with h' | h'
      · exact Or.inl h'
      · obtain ⟨raw, hr, a, b, c⟩ := h'
        exact Or.inr ⟨raw, by simp [hr], a, b, c⟩

lemma resolveUrls_mem (base : String) (l : List String) (v : String)
    (h : v ∈ resolveUrls base l) :
    ∃ raw ∈ l, raw ≠ "" ∧ strHasPrefix raw "data:" = false ∧
      v = urljoinM base raw := by
  unfold resolveUrls at h
  rcases resolveUrls_mem_aux base l [] v h with h' | h'
  · simp at h'
  · exact h'

/-- In `d ++ [s] ++ h ++ [s] ++ t`, fixed-length `t` and `h` components are
recoverable: equal concatenations have equal `h` components. -/
lemma append_five_inj {α : Type} (d1 d2 h1 h2 t1 t2 : List α) (s : α)
    (hlenh : h1.length = h2.length) (hlent : t1.length = t2.length)
    (heq : d1 ++ [s] ++ h1 ++ [s] ++ t1 = d2 ++ [s] ++ h2 ++ [s] ++ t2) :
    h1 = h2 := by
  have e1 := (List.append_inj' heq hlent).1
  have e2 := (List.append_inj' e1 rfl).1
  exact (List.append_inj' e2 hlenh).2

/-! ## Claims

One theorem per claim of the specification audit, with witnesses for
theorems that carry hypotheses and counterexamples for corrected claims. -/

/-- Claim C1, counterexample: in the stated scenario the extractor resolves
exactly `https://ex.com/img/a.jpg` and `https://ex.com/b.png`, but the
document persisted as `index.html` does NOT reference the local paths
`media/ex.com/img/a.jpg` / `media/ex.com/b.png`: `modify_html_content`
never rewrites media references to local paths (it only adds style markers
and stylesheet links). -/
theorem claim1_counterexample :
    extractMediaUrls c1Page c1Base =
      ["https://ex.com/img/a.jpg", "https://ex.com/b.png"] ∧
    soupReferences (modifyHtmlContent c1Sess c1Soup c1Styles c1Base [] []).soup
      "media/ex.com/img/a.jpg" = false ∧
    soupReferences (modifyHtmlContent c1Sess c1Soup c1Styles c1Base [] []).soup
      "media/ex.com/b.png" = false := by
  decide

/-- Claim C1 (amended): in the scenario with base `https://ex.com/p`,
`<img src="/img/a.jpg">` and computed `background-image: url(../b.png)`,
the pipeline resolves the references to `https://ex.com/img/a.jpg` and
`https://ex.com/b.png`, issues exactly one fetch attempt-sequence for each,
and on success persists the bytes at `media/ex.com/img/a.jpg` and
`media/ex.com/b.png`; the persisted `index.html`, however, keeps the
original reference `/img/a.jpg` and contains no reference to the local
media paths. -/
theorem claim1_scenario :
    extractMediaUrls c1Page c1Base =
      ["https://ex.com/img/a.jpg", "https://ex.com/b.png"] ∧
    (fetchPhase c1Net (extractMediaUrls c1Page c1Base) initialState).2 =
      [("https://ex.com/img/a.jpg", 1), ("https://ex.com/b.png", 1)] ∧
    getFile (fetchPhase c1Net (extractMediaUrls c1Page c1Base) initialState).1.files
      "media/ex.com/img/a.jpg" = some [97, 98] ∧
    getFile (fetchPhase c1Net (extractMediaUrls c1Page c1Base) initialState).1.files
      "media/ex.com/b.png" = some [97, 98] ∧
    (modifyHtmlContent c1Sess c1Soup c1Styles c1Base [] []).soup.elems.any
      (fun el => el.attrs.contains ("src", "/img/a.jpg")) = true := by
  decide

/-- Claim C2, counterexample: an attempt that answers 200 and errors
mid-stream after two bytes, followed by failing retries, ends in a
`Failed` outcome while a truncated file remains at the destination —
`download_resource` writes directly to the final path with no temporary
file or delete-on-failure. -/
theorem claim2_counterexample :
    (downloadResource c2Net "https://ex.com/big.bin" "media/ex.com/big.bin"
        initialState).2 = .failed "stream error" ∧
    getFile (downloadResource c2Net "https://ex.com/big.bin" "media/ex.com/big.bin"
        initialState).1.files "media/ex.com/big.bin" = some [104, 105] := by
  decide

/-- Claim C2 (amended): when every attempt fails without reaching a 200
body (non-200 status or a transport error at request time), the fetch ends
`Failed` and no file — complete or truncated — exists at the destination;
only a 200 response whose stream errors mid-body can leave a truncated
file. -/
theorem claim2_no_partial_file (net : Nat → NetResult) (u path : String)
    (st : ArchState) (hdl : u ∉ st.downloadedResources)
    (hf : ∀ a, attemptHardFails (net a) = true)
    (hfile : getFile st.files path = none) :
    (downloadResource net u path st).2 = .failed (errOf (net 2)) ∧
    getFile (downloadResource net u path st).1.files path = none := by
  have hf' : ∀ a, attemptFails (net a) = true := fun a => attemptHardFails_fails _ (hf a)
  obtain ⟨ho, _, _, _⟩ := downloadResource_allfail net u path st hdl hf'
  refine ⟨ho, ?_⟩
  have hfs : (downloadResource net u path st).1.files = st.files := by
    unfold downloadResource
    rw [if_neg hdl]
    exact dlLoop_hardfail_files net u path [0, 1, 2] "" st (fun a _ => hf a)
  rw [hfs, hfile]

/-- Witness for C2 (amended): a concrete always-503 fetch leaves no file. -/
theorem claim2_witness :
    ("https://ex.com/w.png" ∉ initialState.downloadedResources ∧
     getFile initialState.files "media/ex.com/w.png" = none) ∧
    ((downloadResource c2WitnessNet "https://ex.com/w.png" "media/ex.com/w.png"
        initialState).2 = .failed (errOf (c2WitnessNet 2)) ∧
     getFile (downloadResource c2WitnessNet "https://ex.com/w.png"
        "media/ex.com/w.png" initialState).1.files "media/ex.com/w.png" = none) :=
  ⟨⟨by decide, rfl⟩,
   claim2_no_partial_file c2WitnessNet "https://ex.com/w.png" "media/ex.com/w.png"
     initialState (by decide) (fun _ => rfl) rfl⟩

/-- Claim C3 (confirmed): a URL whose fetch always fails is attempted
exactly 3 times (three logged requests), with delays `2^0 = 1` then
`2^1 = 2` seconds between consecutive attempts — strictly increasing and
doubling — after which the call returns (it cannot raise: it is a total
function into outcomes) a `Failed` outcome carrying the last attempt's
error; within the run's fetch loop over the deduplicated URL set that URL
accounts for exactly those 3 requests, so it is never retried again. -/
theorem claim3_retry_policy (net : String → Nat → NetResult) (urls : List String)
    (u path : String) (st : ArchState)
    (hnd : urls.Nodup) (hu : u ∈ urls)
    (hf : ∀ a, attemptFails (net u a) = true)
    (hdl : u ∉ st.downloadedResources) :
    (downloadResource (net u) u path st).2 = .failed (errOf (net u 2)) ∧
    (downloadResource (net u) u path st).1.requests = st.requests ++ [u, u, u] ∧
    (downloadResource (net u) u path st).1.sleeps = st.sleeps ++ [1, 2] ∧
    ((fetchPhase net urls initialState).1.requests).count u = 3 := by
  obtain ⟨ho, hr, hl, _⟩ := downloadResource_allfail (net u) u path st hdl hf
  refine ⟨ho, hr, hl, ?_⟩
  have h3 := fetchPhase_count_allfail net u hf urls initialState hnd hu
    (by simp [initialState])
  simpa [initialState] using h3

/-- Witness for C3: a run over one URL whose fetch always raises. -/
theorem claim3_witness :
    ((["https://ex.com/a.png"] : List String).Nodup ∧
     "https://ex.com/a.png" ∉ initialState.downloadedResources) ∧
    ((downloadResource (c3Net "https://ex.com/a.png") "https://ex.com/a.png"
        "media/ex.com/a.png" initialState).2 =
          .failed (errOf (c3Net "https://ex.com/a.png" 2)) ∧
     (downloadResource (c3Net "https://ex.com/a.png") "https://ex.com/a.png"
        "media/ex.com/a.png" initialState).1.requests =
          initialState.requests ++
            ["https://ex.com/a.png", "https://ex.com/a.png", "https://ex.com/a.png"] ∧
     (downloadResource (c3Net "https://ex.com/a.png") "https://ex.com/a.png"
        "media/ex.com/a.png" initialState).1.sleeps = initialState.sleeps ++ [1, 2] ∧
     ((fetchPhase c3Net ["https://ex.com/a.png"] initialState).1.requests).count
        "https://ex.com/a.png" = 3) :=
  ⟨⟨by decide, by decide⟩,
   claim3_retry_policy c3Net ["https://ex.com/a.png"] "https://ex.com/a.png"
     "media/ex.com/a.png" initialState (by decide) (by decide) (fun _ => rfl)
     (by decide)⟩

/-- Claim C4, counterexample: after an exhausted failure (three 500
responses), the URL is NOT recorded in `downloaded_resources`, so calling
`download_resource` again with the same URL performs three further HTTP
requests, not zero. -/
theorem claim4_counterexample :
    c4FirstCall.2 = .failed "Status 500" ∧
    c4FirstCall.1.requests.length = 3 ∧
    (downloadResource c4Net "https://ex.com/x.png" "media/ex.com/x.png"
        c4FirstCall.1).1.requests.length = 6 := by
  decide

/-- Claim C4 (amended): the dedup set records successes only.  Once a URL
has a recorded success, any further `download_resource` call for it
performs zero HTTP requests; a success outcome always records the URL; and
a run's fetch loop over `k` distinct URLs issues exactly `k` fetch
attempt-sequences, each of 1 to 3 requests.  A URL whose retries were
exhausted is not recorded and would be refetched if passed again. -/
theorem claim4_dedup (net : String → Nat → NetResult)
    (net2 net3 : Nat → NetResult) (urls : List String) (u path2 path3 : String)
    (st st2 : ArchState) (hnd : urls.Nodup)
    (hmem : u ∈ st.downloadedResources)
    (hsucc : (downloadResource net3 u path3 st2).2 = .success) :
    downloadResource net2 u path2 st = (st, .skipped) ∧
    u ∈ (downloadResource net3 u path3 st2).1.downloadedResources ∧
    (fetchPhase net urls initialState).2.map Prod.fst = urls ∧
    (∀ p ∈ (fetchPhase net urls initialState).2, 1 ≤ p.2 ∧ p.2 ≤ 3) := by
  refine ⟨?_, downloadResource_success_mem net3 u path3 st2 hsucc,
    fetchPhase_trace_fst net urls initialState, ?_⟩
  · unfold downloadResource
    rw [if_pos hmem]
  · exact fetchPhase_trace_bounds net urls initialState hnd
      (fun v _ => by simp [initialState])

/-- Witness for C4 (amended): concrete two-URL run with a recorded success. -/
theorem claim4_witness :
    ((["https://ex.com/a.png", "https://ex.com/b.png"] : List String).Nodup ∧
     "https://ex.com/a.png" ∈ c4DoneState.downloadedResources ∧
     (downloadResource c4OneNet "https://ex.com/a.png" "media/ex.com/a.png"
        initialState).2 = .success) ∧
    (downloadResource c4OneNet "https://ex.com/a.png" "media/ex.com/a.png"
        c4DoneState = (c4DoneState, .skipped) ∧
     "https://ex.com/a.png" ∈ (downloadResource c4OneNet "https://ex.com/a.png"
        "media/ex.com/a.png" initialState).1.downloadedResources ∧
     (fetchPhase c4OkNet ["https://ex.com/a.png", "https://ex.com/b.png"]
        initialState).2.map Prod.fst =
          ["https://ex.com/a.png", "https://ex.com/b.png"] ∧
     (∀ p ∈ (fetchPhase c4OkNet ["https://ex.com/a.png", "https://ex.com/b.png"]
        initialState).2, 1 ≤ p.2 ∧ p.2 ≤ 3)) :=
  ⟨⟨by decide, by decide, by decide⟩,
   claim4_dedup c4OkNet c4OneNet c4OneNet
     ["https://ex.com/a.png", "https://ex.com/b.png"] "https://ex.com/a.png"
     "media/ex.com/a.png" "media/ex.com/a.png" c4DoneState initialState
     (by decide) (by decide) (by decide)⟩

/-- Claim C5 (code bug): parsing the synthetic stylesheet never yields any
resource.  `download_css_resources` calls `tinycss2.parse_stylesheet()`
with no argument, which raises `TypeError` before any rule is examined;
the `except` branch returns the content unchanged, so `font_files` and
`css_files` stay exactly as they were — for the synthetic stylesheet and
for every other input. -/
theorem claim5_css_extraction_bug :
    downloadCssResources c5Stylesheet "https://ex.com/sheet.css" [] [] =
      (c5Stylesheet, [], []) ∧
    ∀ (css base : String) (ff cf : List String),
      downloadCssResources css base ff cf = (css, ff, cf) :=
  ⟨rfl, fun _ _ _ _ => rfl⟩

/-- Claim C6 (confirmed): `create_directory` names the directory
`{domain}_{hash8(url)}_{timestamp}`; archiving the same URL twice yields
names sharing the domain and hash components (differing only in the
timestamp slot), and two URLs whose 8-character hash prefixes differ
(hash collisions aside) never produce colliding names, given the source's
fixed 15-character timestamp format. -/
theorem claim6_layout_naming (hashFn : String → String) (u1 u2 t1 t2 : String)
    (hh : (hashFn u1).data.take 8 ≠ (hashFn u2).data.take 8)
    (hl1 : 8 ≤ (hashFn u1).data.length) (hl2 : 8 ≤ (hashFn u2).data.length)
    (ht1 : t1.data.length = 15) (ht2 : t2.data.length = 15) :
    (∃ d h : String,
        createDirectoryName hashFn u1 t1 = d ++ "_" ++ h ++ "_" ++ t1 ∧
        createDirectoryName hashFn u1 t2 = d ++ "_" ++ h ++ "_" ++ t2) ∧
    createDirectoryName hashFn u1 t1 ≠ createDirectoryName hashFn u2 t2 := by
  constructor
  · exact ⟨(urlsplitM u1 "").netloc, ⟨(hashFn u1).data.take 8⟩, rfl, rfl⟩
  · intro heq
    have hdata := congrArg String.data heq
    simp only [createDirectoryName, str_data_append] at hdata
    have hlenh : ((hashFn u1).data.take 8).length = ((hashFn u2).data.take 8).length := by
      rw [List.length_take, List.length_take, Nat.min_eq_left hl1, Nat.min_eq_left hl2]
    have hlent : t1.data.length = t2.data.length := by rw [ht1, ht2]
    exact hh (append_five_inj _ _ _ _ _ _ '_' hlenh hlent hdata)

/-- Witness for C6: a concrete 32-hex-character hash function and two
timestamps in the source's `%Y%m%d_%H%M%S` format. -/
theorem claim6_witness :
    ((mockMd5 "https://a.example/page1").data.take 8 ≠
        (mockMd5 "https://a.example/page2").data.take 8 ∧
     8 ≤ (mockMd5 "https://a.example/page1").data.length ∧
     8 ≤ (mockMd5 "https://a.example/page2").data.length ∧
     ("20260101_120000" : String).data.length = 15 ∧
     ("20260102_130000" : String).data.length = 15) ∧
    ((∃ d h : String,
        createDirectoryName mockMd5 "https://a.example/page1" "20260101_120000" =
          d ++ "_" ++ h ++ "_" ++ "20260101_120000" ∧
        createDirectoryName mockMd5 "https://a.example/page1" "20260102_130000" =
          d ++ "_" ++ h ++ "_" ++ "20260102_130000") ∧
     createDirectoryName mockMd5 "https://a.example/page1" "20260101_120000" ≠
       createDirectoryName mockMd5 "https://a.example/page2" "20260102_130000") :=
  ⟨⟨by decide, by decide, by decide, by decide, by decide⟩,
   claim6_layout_naming mockMd5 "https://a.example/page1" "https://a.example/page2"
     "20260101_120000" "20260102_130000" (by decide) (by decide) (by decide)
     (by decide) (by decide)⟩

/-- Claim C7 (confirmed): every URL returned by `extract_media_urls` is
`urljoin(base, raw)` for some collected raw reference that was truthy and
not a `data:` URI, and no returned URL is a `data:` URI — for every page
base URL with a scheme (`http`, `https`, `file`, …; a navigable page URL
always has one): data-embedded references, including those arriving via
`data-src` and computed `background-image`, are excluded from the
fetchable set. -/
theorem claim7_resolution (page : PageOracle) (base : String)
    (hb : (urlsplitM base "").scheme ≠ "") :
    ∀ v ∈ extractMediaUrls page base,
      (∃ raw ∈ collectedRaws page,
          raw ≠ "" ∧ strHasPrefix raw "data:" = false ∧ v = urljoinM base raw) ∧
      strHasPrefix v "data:" = false := by
  intro v hv
  unfold extractMediaUrls extractMediaUrlsBody at hv
  cases hcol : collectMediaUrls page with
  | error e => rw [hcol] at hv; simp at hv
  | ok m =>
    rw [hcol] at hv
    have hv' : v ∈ resolveUrls base m := by simpa using hv
    obtain ⟨raw, hr, hne, hnd, hveq⟩ := resolveUrls_mem base m v hv'
    exact ⟨⟨raw, by simp [collectedRaws, hcol, hr], hne, hnd, hveq⟩,
      hveq ▸ urljoinM_not_data base raw hb hne hnd⟩

/-- Witness for C7: a concrete plain-`http` page with relative,
protocol-relative, absolute, `data:`-lazy-load and computed-background
references. -/
theorem claim7_witness :
    (urlsplitM "http://ex.com/dir/p" "").scheme ≠ "" ∧
    ∀ v ∈ extractMediaUrls c7Page "http://ex.com/dir/p",
      (∃ raw ∈ collectedRaws c7Page,
          raw ≠ "" ∧ strHasPrefix raw "data:" = false ∧
          v = urljoinM "http://ex.com/dir/p" raw) ∧
      strHasPrefix v "data:" = false :=
  ⟨by decide, claim7_resolution c7Page "http://ex.com/dir/p" (by decide)⟩

/-- Claim C8 (confirmed): `extract_media_urls` never raises to its caller:
for every page oracle — including ones whose queries or script evaluation
raise — the function returns a plain list; a raised body is absorbed by
the outer `except` into the empty set, a normal body's result passes
through. -/
theorem claim8_extraction_never_raises (page : PageOracle) (base : String) :
    (∀ e, extractMediaUrlsBody page base = .error e →
        extractMediaUrls page base = []) ∧
    (∀ r, extractMediaUrlsBody page base = .ok r →
        extractMediaUrls page base = r) := by
  constructor
  · intro e he; unfold extractMediaUrls; rw [he]
  · intro r hr; unfold extractMediaUrls; rw [hr]

/-- Witness for C8: a page whose element query raises is absorbed into an
empty result. -/
theorem claim8_witness :
    extractMediaUrlsBody crashingPage "https://ex.com/p" =
      .error "Page.query_selector_all: Target closed" ∧
    extractMediaUrls crashingPage "https://ex.com/p" = [] :=
  ⟨rfl, (claim8_extraction_never_raises crashingPage "https://ex.com/p").1 _ rfl⟩

/-- Claim C9 (confirmed): `EnhancedArchiver.create_output_path` yields
`book_{domain}_{timestamp}.pdf`; the MD5 hash it computes never enters the
name, so the path depends only on the URL's host (and the clock second):
any two URLs with equal netloc — under any two hash functions — map to the
identical output path in the same second. -/
theorem claim9_output_path_ignores_hash (outputDir t : String)
    (hashFn1 hashFn2 : String → String) (u1 u2 : String)
    (hnet : (urlsplitM u1 "").netloc = (urlsplitM u2 "").netloc) :
    createOutputPath outputDir hashFn1 u1 t = createOutputPath outputDir hashFn2 u2 t := by
  simp [createOutputPath, hnet]

/-- Witness for C9: two distinct URLs on the same host collide in the same
second. -/
theorem claim9_witness :
    (urlsplitM "https://books.ex.com/a" "").netloc =
      (urlsplitM "https://books.ex.com/b?x=1" "").netloc ∧
    createOutputPath "downloaded_books" (fun _ => "0000000000")
        "https://books.ex.com/a" "20260101_120000" =
      createOutputPath "downloaded_books" (fun u => u)
        "https://books.ex.com/b?x=1" "20260101_120000" :=
  ⟨by decide,
   claim9_output_path_ignores_hash "downloaded_books" "20260101_120000"
     (fun _ => "0000000000") (fun u => u) "https://books.ex.com/a"
     "https://books.ex.com/b?x=1" (by decide)⟩

/-- Claim C10 (confirmed): `download_tweet` requires a `/status/<digits>`
segment preceded by a username segment; when either regex of lines 12–13
fails to match, the function raises `AttributeError` before `os.makedirs`
and before any browser launch, creating no directory. -/
theorem claim10_tweet_precondition (url : String)
    (h : hasTweetPattern url = false) :
    (downloadTweetSetup url).raised = true ∧
    (downloadTweetSetup url).dirsCreated = [] := by
  cases hs : searchStatusId url.data with
  | none => simp [downloadTweetSetup, hs]
  | some tid =>
    cases hu : searchUsername url.data with
    | none => simp [downloadTweetSetup, hs, hu]
    | some un =>
      unfold hasTweetPattern at h
      rw [hs, hu] at h
      simp at h

/-- Witness for C10: a URL with no `/status/` segment raises before any
directory is created. -/
theorem claim10_witness :
    hasTweetPattern "https://example.com/foo" = false ∧
    ((downloadTweetSetup "https://example.com/foo").raised = true ∧
     (downloadTweetSetup "https://example.com/foo").dirsCreated = []) :=
  ⟨by decide, claim10_tweet_precondition "https://example.com/foo" (by decide)⟩

end WebpageScrape
